import Mathlib

/-!
Shallow embedding of `src/src-tauri/src/lib.rs` (the `run` entry point of the
memory-player Tauri shell) and proofs of the spec's claims about it.

The source is a single bootstrap function:

  pub fn run() {
    tauri::Builder::default()
      .setup(|app| {
        if cfg!(debug_assertions) {
          app.handle().plugin(
            tauri_plugin_log::Builder::default()
              .level(log::LevelFilter::Info)
              .level_for("tao::platform_impl::platform::event_loop::runner",
                         log::LevelFilter::Error)
              .build(),
          )?;
        }
        app.handle().plugin(tauri_plugin_fs::init())?;
        app.handle().plugin(tauri_plugin_shell::init())?;
        app.handle().plugin(tauri_plugin_dialog::init())?;
        app.handle().plugin(tauri_plugin_opener::init())?;
        Ok(())
      })
      .run(tauri::generate_context!())
      .expect("error while running tauri application");
  }

The embedding makes the environment explicit: the outcome of each
`app.handle().plugin(...)` call is a parameter `attach : Plugin → Except E Unit`,
and the outcome of starting the host run loop is a parameter
`runLoopStart : Except E Unit`.  The setup closure is translated statement by
statement, with Rust's `?` operator becoming the short-circuiting sequencing
combinator `andThen` below, which also records the attempted attachments in
order.
-/

namespace MemoryPlayer

/-- Severity levels of the `log` crate's `LevelFilter`. -/
inductive LevelFilter
  | Off
  | Error
  | Warn
  | Info
  | Debug
  | Trace
  deriving DecidableEq, Repr

/-- Configuration accumulated by `tauri_plugin_log::Builder`: a maximum level
(if `.level` was called) and the ordered `level_for` overrides. -/
structure LogBuilder where
  maxLevel : Option LevelFilter
  overrides : List (String × LevelFilter)
  deriving DecidableEq, Repr

/-- `tauri_plugin_log::Builder::default()`: no explicit level, no overrides. -/
def LogBuilder.default : LogBuilder :=
  { maxLevel := none, overrides := [] }

/-- `.level(lf)` sets the maximum level. -/
def LogBuilder.level (b : LogBuilder) (lf : LevelFilter) : LogBuilder :=
  { b with maxLevel := some lf }

/-- `.level_for(target, lf)` appends one named-source override. -/
def LogBuilder.level_for (b : LogBuilder) (target : String) (lf : LevelFilter) :
    LogBuilder :=
  { b with overrides := b.overrides ++ [(target, lf)] }

/-- `.build()` finalizes the builder into the plugin's configuration. -/
def LogBuilder.build (b : LogBuilder) : LogBuilder := b

/-- The logging plugin value constructed in the setup closure (lib.rs lines 6-14). -/
def logPluginConfig : LogBuilder :=
  ((LogBuilder.default.level LevelFilter.Info).level_for
      "tao::platform_impl::platform::event_loop::runner"
      LevelFilter.Error).build

/-- The plugins the setup closure attaches; the logging plugin carries its
builder configuration. -/
inductive Plugin
  | log (cfg : LogBuilder)
  | fs
  | shell
  | dialog
  | opener
  deriving DecidableEq, Repr

/-- Result of a run of (part of) the setup closure: the plugins whose
attachment was attempted, in order, and either success or the first error. -/
abbrev SetupResult (E : Type) := List Plugin × Except E Unit

/-- Sequencing of two setup steps, mirroring Rust's `?` operator: an error in
the first step short-circuits the second; attempted attachments accumulate. -/
def andThen {E : Type} (step : SetupResult E) (next : Unit → SetupResult E) :
    SetupResult E :=
  match step with
  | (tr, Except.error e) => (tr, Except.error e)
  | (tr, Except.ok u) =>
    let nxt := next u
    (tr ++ nxt.1, nxt.2)

/-- One `app.handle().plugin(p)` call under environment `attach`: the attempt
on `p` is recorded and its outcome is whatever the environment reports. -/
def attachP {E : Type} (attach : Plugin → Except E Unit) (p : Plugin) :
    SetupResult E :=
  ([p], attach p)

/-- The setup closure of `run` (lib.rs lines 4-21), translated statement by
statement: in a debug build first the logging plugin, then unconditionally
filesystem, shell, dialog and opener, each behind `?`. -/
def setup {E : Type} (debug : Bool) (attach : Plugin → Except E Unit) :
    SetupResult E :=
  andThen (if debug then attachP attach (Plugin.log logPluginConfig)
           else ([], Except.ok ())) fun _ =>
  andThen (attachP attach Plugin.fs) fun _ =>
  andThen (attachP attach Plugin.shell) fun _ =>
  andThen (attachP attach Plugin.dialog) fun _ =>
  andThen (attachP attach Plugin.opener) fun _ =>
  ([], Except.ok ())

/-- Outcome of the whole `run` entry point: either the application exited
normally, or the process aborted via the `expect` panic. -/
inductive RunOutcome
  | normalExit
  | panicked (msg : String)
  deriving DecidableEq, Repr

/-- Modelled from the spec: the host framework's `Builder::run` (the Tauri
framework itself is not part of this repository) invokes the setup hook once;
a setup failure propagates to `run`'s result, and otherwise the result is an
error exactly when the run loop fails to start. -/
def tauriRun {E : Type} (setupResult : Except E Unit)
    (runLoopStart : Except E Unit) : Except E Unit :=
  match setupResult with
  | Except.error e => Except.error e
  | Except.ok _ => runLoopStart

/-- The `run` entry point (lib.rs lines 2-24): build with the setup hook, run,
and `.expect("error while running tauri application")` on the result. -/
def run {E : Type} (debug : Bool) (attach : Plugin → Except E Unit)
    (runLoopStart : Except E Unit) : RunOutcome :=
  match tauriRun (setup debug attach).2 runLoopStart with
  | Except.ok _ => RunOutcome.normalExit
  | Except.error _ => RunOutcome.panicked "error while running tauri application"

/-- The fixed attachment order the spec states: logging (debug builds only),
then filesystem, shell, dialog, opener. -/
def pluginOrder (debug : Bool) : List Plugin :=
  (if debug then [Plugin.log logPluginConfig] else []) ++
    [Plugin.fs, Plugin.shell, Plugin.dialog, Plugin.opener]

/-- Observable events of one invocation of `run`, in order: each attachment
attempt, completion of setup, start of the run loop, and process exit (normal
or via the fatal `expect` abort). -/
inductive Event
  | attachAttempt (p : Plugin)
  | setupDone
  | runLoopStarted
  | exited
  | fatalAbort
  deriving DecidableEq, Repr

/-- The event trace of one invocation of `run`. -/
def runTrace {E : Type} (debug : Bool) (attach : Plugin → Except E Unit)
    (runLoopStart : Except E Unit) : List Event :=
  ((setup debug attach).1.map Event.attachAttempt) ++
    match (setup debug attach).2 with
    | Except.error _ => [Event.fatalAbort]
    | Except.ok _ =>
      Event.setupDone ::
        match runLoopStart with
        | Except.error _ => [Event.fatalAbort]
        | Except.ok _ => [Event.runLoopStarted, Event.exited]

/-- Phase of the bootstrap state machine an event belongs to:
0 = Initializing, 1 = Running, 2 = process exit. -/
def phaseOf : Event → Nat
  | Event.attachAttempt _ => 0
  | Event.setupDone => 0
  | Event.runLoopStarted => 1
  | Event.exited => 2
  | Event.fatalAbort => 2

/-- Generic form of the setup closure's attachment loop: attempt the plugins
of `l` in order, short-circuiting at the first error.  Used only to reason
about `setup`; `setup_eq_attachSeq` connects the two. -/
def attachSeq {E : Type} (attach : Plugin → Except E Unit) :
    List Plugin → SetupResult E
  | [] => ([], Except.ok ())
  | p :: ps =>
    match attach p with
    | Except.error e => ([p], Except.error e)
    | Except.ok _ =>
      let r := attachSeq attach ps
      (p :: r.1, r.2)

/-- An all-success environment, used by the witnesses. -/
def allOk : Plugin → Except String Unit := fun _ => Except.ok ()

/-- An environment in which only the filesystem plugin fails, used by the
witnesses. -/
def fsFails : Plugin → Except String Unit := fun p =>
  match p with
  | Plugin.fs => Except.error "fs attach failed"
  | _ => Except.ok ()

/-- Unfolding `setup` to the generic attachment loop over the fixed order. -/
lemma setup_eq_attachSeq {E : Type} (debug : Bool)
    (attach : MemoryPlayer.Plugin → Except E Unit) :
    setup debug attach = attachSeq attach (pluginOrder debug) := by
  cases debug <;>
    cases hl : attach (Plugin.log logPluginConfig) <;>
    cases hf : attach Plugin.fs <;>
    cases hs : attach Plugin.shell <;>
    cases hd : attach Plugin.dialog <;>
    cases ho : attach Plugin.opener <;>
      simp [setup, andThen, attachP, attachSeq, pluginOrder, hl, hf, hs, hd, ho]

/-- The attempted attachments are always an initial segment of the list given
to the attachment loop. -/
lemma attachSeq_fst_isInitial {E : Type} (attach : MemoryPlayer.Plugin → Except E Unit) :
    ∀ l : List MemoryPlayer.Plugin, (attachSeq attach l).1 <+: l := by
  intro l
  induction l with
  | nil => simp [attachSeq]
  | cons q qs ih =>
    cases hq : attach q with
    | error e => exact ⟨qs, by simp [attachSeq, hq]⟩
    | ok u =>
      obtain ⟨t, ht⟩ := ih
      exact ⟨t, by simp [attachSeq, hq, ht]⟩

/-- When every attachment succeeds, the loop attempts the whole list and
reports success. -/
lemma attachSeq_all_ok {E : Type} (attach : MemoryPlayer.Plugin → Except E Unit)
    (hall : ∀ p, attach p = Except.ok ()) :
    ∀ l : List MemoryPlayer.Plugin, attachSeq attach l = (l, Except.ok ()) := by
  intro l
  induction l with
  | nil => simp [attachSeq]
  | cons q qs ih => simp [attachSeq, hall q, ih]

/-- If an attempted attachment failed, the loop stops at it: the error is the
loop's result, the failed plugin is the last attempt, and every earlier
attempt succeeded. -/
lemma attachSeq_stops_at_failure {E : Type}
    (attach : MemoryPlayer.Plugin → Except E Unit) (e : E) :
    ∀ (l : List MemoryPlayer.Plugin) (p : MemoryPlayer.Plugin),
      attach p = Except.error e → p ∈ (attachSeq attach l).1 →
      (attachSeq attach l).2 = Except.error e ∧
        ∃ pre, (attachSeq attach l).1 = pre ++ [p] ∧
          ∀ q ∈ pre, attach q = Except.ok () := by
  intro l
  induction l with
  | nil => intro p hp hmem; simp [attachSeq] at hmem
  | cons q qs ih =>
    intro p hp hmem
    cases hq : attach q with
    | error e' =>
      simp only [attachSeq, hq] at hmem ⊢
      simp only [List.mem_singleton] at hmem
      subst hmem
      rw [hp] at hq
      refine ⟨by rw [← hq], ⟨[], rfl, by simp⟩⟩
    | ok u =>
      simp only [attachSeq, hq] at hmem ⊢
      rcases List.mem_cons.mp hmem with h | h
      · subst h; rw [hp] at hq; exact absurd hq (by simp)
      · obtain ⟨hres, pre, hpre, hok⟩ := ih p hp h
        refine ⟨hres, ⟨q :: pre, by simp [hpre], ?_⟩⟩
        intro r hr
        rcases List.mem_cons.mp hr with h' | h'
        · subst h'; cases u; exact hq
        · exact hok r h'

/-- Claim C2: for every build mode, when all attachments succeed, the setup
hook performs exactly the attachments logging (debug only), filesystem, shell,
dialog, opener, in this fixed order, strictly sequentially, and succeeds. -/
theorem claim_C2_fixed_attachment_order {E : Type} (debug : Bool)
    (attach : MemoryPlayer.Plugin → Except E Unit)
    (hall : ∀ p, attach p = Except.ok ()) :
    (setup debug attach).1 =
      (if debug then [Plugin.log logPluginConfig] else []) ++
        [Plugin.fs, Plugin.shell, Plugin.dialog, Plugin.opener] ∧
    (setup debug attach).2 = Except.ok () := by
  rw [setup_eq_attachSeq, attachSeq_all_ok attach hall]
  exact ⟨rfl, rfl⟩

/-- Witness for C2: in a debug build with an all-success environment, the
attempted order is logging, filesystem, shell, dialog, opener. -/
theorem claim_C2_witness :
    (∀ p, allOk p = Except.ok ()) ∧
    ((setup true allOk).1 =
      (if true then [Plugin.log logPluginConfig] else []) ++
        [Plugin.fs, Plugin.shell, Plugin.dialog, Plugin.opener] ∧
    (setup true allOk).2 = Except.ok ()) :=
  ⟨fun _ => rfl, claim_C2_fixed_attachment_order true allOk (fun _ => rfl)⟩

/-- Claim C10: when all attachments succeed, each plugin is attached exactly
once: five attachments in a debug build, four in a release build, no plugin
more than once. -/
theorem claim_C10_each_plugin_once {E : Type} (debug : Bool)
    (attach : MemoryPlayer.Plugin → Except E Unit)
    (hall : ∀ p, attach p = Except.ok ()) :
    (setup debug attach).1.length = (if debug then 5 else 4) ∧
    (setup debug attach).1.Nodup ∧
    ∀ p, (setup debug attach).1.count p ≤ 1 := by
  rw [setup_eq_attachSeq, attachSeq_all_ok attach hall]
  have hnd : (pluginOrder debug).Nodup := by
    cases debug <;> decide
  refine ⟨?_, hnd, fun p => List.nodup_iff_count_le_one.mp hnd p⟩
  cases debug <;> rfl

/-- Witness for C10: in a release build with an all-success environment,
exactly four pairwise distinct attachments occur. -/
theorem claim_C10_witness :
    (∀ p, allOk p = Except.ok ()) ∧
    ((setup false allOk).1.length = (if false then 5 else 4) ∧
    (setup false allOk).1.Nodup ∧
    ∀ p, (setup false allOk).1.count p ≤ 1) :=
  ⟨fun _ => rfl, claim_C10_each_plugin_once false allOk (fun _ => rfl)⟩

/-- Claim C7: the bootstrap is deterministic: under the same build-mode flag,
two invocations whose plugin attachments report the same outcomes attempt the
identical registration sequence, and that sequence always follows the one
fixed order (it is an initial segment of it). -/
theorem claim_C7_deterministic_bootstrap {E : Type} (debug : Bool)
    (a₁ a₂ : MemoryPlayer.Plugin → Except E Unit)
    (h : ∀ p, a₁ p = a₂ p) :
    (setup debug a₁).1 = (setup debug a₂).1 ∧
    (setup debug a₁).1 <+: pluginOrder debug := by
  have ha : a₁ = a₂ := funext h
  subst ha
  refine ⟨rfl, ?_⟩
  rw [setup_eq_attachSeq]
  exact attachSeq_fst_isInitial a₁ _

/-- Witness for C7: two debug invocations over the all-success environment
attempt the same sequence, an initial segment of the fixed order. -/
theorem claim_C7_witness :
    (∀ p, allOk p = allOk p) ∧
    ((setup true allOk).1 = (setup true allOk).1 ∧
    (setup true allOk).1 <+: pluginOrder true) :=
  ⟨fun _ => rfl, claim_C7_deterministic_bootstrap true allOk allOk (fun _ => rfl)⟩

/-- Claim C4: in a release build the logging plugin is never attached,
whatever the outcomes of the other attachments. -/
theorem claim_C4_release_no_logging {E : Type}
    (attach : MemoryPlayer.Plugin → Except E Unit) (cfg : LogBuilder) :
    Plugin.log cfg ∉ (setup false attach).1 := by
  intro hmem
  have hpre : (setup false attach).1 <+: pluginOrder false := by
    rw [setup_eq_attachSeq]
    exact attachSeq_fst_isInitial attach _
  have hmem' := hpre.subset hmem
  simp [pluginOrder] at hmem'

/-- Claim C1: if an attempted plugin attachment fails, setup propagates that
very error, the failed plugin is the last attempt (no subsequent plugin in
the fixed order is attempted: the attempts stay an initial segment of the
order, every earlier attempt succeeded); in particular when the filesystem
attachment fails, shell, dialog and opener are never attached. -/
theorem claim_C1_failure_short_circuits {E : Type} (debug : Bool)
    (attach : MemoryPlayer.Plugin → Except E Unit) (p : MemoryPlayer.Plugin) (e : E)
    (hp : attach p = Except.error e) (hmem : p ∈ (setup debug attach).1) :
    (setup debug attach).2 = Except.error e ∧
    (∃ pre, (setup debug attach).1 = pre ++ [p] ∧
      ∀ q ∈ pre, attach q = Except.ok ()) ∧
    (setup debug attach).1 <+: pluginOrder debug ∧
    (p = Plugin.fs →
      Plugin.shell ∉ (setup debug attach).1 ∧
      Plugin.dialog ∉ (setup debug attach).1 ∧
      Plugin.opener ∉ (setup debug attach).1) := by
  rw [setup_eq_attachSeq] at hmem ⊢
  obtain ⟨hres, pre, hpre, hok⟩ :=
    attachSeq_stops_at_failure attach e (pluginOrder debug) p hp hmem
  refine ⟨hres, ⟨pre, hpre, hok⟩, attachSeq_fst_isInitial attach _, ?_⟩
  rintro rfl
  cases debug with
  | false => simp [pluginOrder, attachSeq, hp]
  | true =>
    cases hl : attach (Plugin.log logPluginConfig) <;>
      simp [pluginOrder, attachSeq, hl, hp]

/-- Witness for C1: in a debug build where the filesystem attachment fails,
setup stops right after it with that error. -/
theorem claim_C1_witness :
    fsFails Plugin.fs = Except.error "fs attach failed" ∧
    Plugin.fs ∈ (setup true fsFails).1 ∧
    ((setup true fsFails).2 = Except.error "fs attach failed" ∧
    (∃ pre, (setup true fsFails).1 = pre ++ [Plugin.fs] ∧
      ∀ q ∈ pre, fsFails q = Except.ok ()) ∧
    (setup true fsFails).1 <+: pluginOrder true ∧
    (Plugin.fs = Plugin.fs →
      Plugin.shell ∉ (setup true fsFails).1 ∧
      Plugin.dialog ∉ (setup true fsFails).1 ∧
      Plugin.opener ∉ (setup true fsFails).1)) :=
  ⟨rfl, by decide,
    claim_C1_failure_short_circuits true fsFails Plugin.fs "fs attach failed"
      rfl (by decide)⟩

/-- Claim C3: in every debug invocation the logging plugin is the first
attachment attempted, configured with minimum severity Info and exactly one
named-source override, set to Error. -/
theorem claim_C3_debug_log_config {E : Type}
    (attach : MemoryPlayer.Plugin → Except E Unit) :
    (setup true attach).1.head? = some (Plugin.log logPluginConfig) ∧
    logPluginConfig.maxLevel = some LevelFilter.Info ∧
    logPluginConfig.overrides.length = 1 ∧
    ∃ t, logPluginConfig.overrides = [(t, LevelFilter.Error)] := by
  refine ⟨?_, rfl, rfl, ⟨_, rfl⟩⟩
  cases hl : attach (Plugin.log logPluginConfig) <;>
    simp [setup, andThen, attachP, hl]

/-- Claim C8: the single named-source override of the logging plugin is keyed
by exactly the string of tao's event-loop runner module and maps it to the
Error level filter; that configuration is what the debug setup attaches
first. -/
theorem claim_C8_override_key {E : Type}
    (attach : MemoryPlayer.Plugin → Except E Unit) :
    logPluginConfig.overrides =
      [("tao::platform_impl::platform::event_loop::runner", LevelFilter.Error)] ∧
    (setup true attach).1.head? = some (Plugin.log logPluginConfig) := by
  refine ⟨rfl, ?_⟩
  cases hl : attach (Plugin.log logPluginConfig) <;>
    simp [setup, andThen, attachP, hl]

/-- Claim C5: if the host run call fails to start, run aborts with the fatal
expect message and never returns normally, whatever happened in setup. -/
theorem claim_C5_run_failure_fatal {E : Type} (debug : Bool)
    (attach : MemoryPlayer.Plugin → Except E Unit) (e : E) :
    run debug attach (Except.error e) =
      RunOutcome.panicked "error while running tauri application" ∧
    run debug attach (Except.error e) ≠ RunOutcome.normalExit := by
  cases hres : (setup debug attach).2 <;>
    simp [run, tauriRun, hres]

/-- Claim C9: run either exits normally or aborts with exactly the message
of the expect call; it exits normally precisely when setup succeeded and the
run loop started, so no failure is ever swallowed. -/
theorem claim_C9_panic_message {E : Type} (debug : Bool)
    (attach : MemoryPlayer.Plugin → Except E Unit) (rls : Except E Unit) :
    (run debug attach rls = RunOutcome.normalExit ∨
      run debug attach rls =
        RunOutcome.panicked "error while running tauri application") ∧
    (run debug attach rls = RunOutcome.normalExit ↔
      ((setup debug attach).2 = Except.ok () ∧ rls = Except.ok ())) := by
  cases hres : (setup debug attach).2 <;> cases hr : rls <;>
    simp [run, tauriRun, hres, hr]

/-- Along the trace of any invocation, a block of attachment attempts (all in
phase 0) followed by any phase-monotone tail is phase-monotone. -/
lemma pairwise_attach_append (xs : List MemoryPlayer.Plugin) (ys : List Event)
    (hys : List.Pairwise (fun a b => phaseOf a ≤ phaseOf b) ys) :
    List.Pairwise (fun a b => phaseOf a ≤ phaseOf b)
      (xs.map Event.attachAttempt ++ ys) := by
  induction xs with
  | nil => simpa using hys
  | cons x xs ih =>
    simp only [List.map_cons, List.cons_append]
    exact List.Pairwise.cons (fun b _ => Nat.zero_le _) ih

/-- Claim C6: every trace of run is phase-monotone — all plugin registrations
happen before the run loop starts and no step returns from Running to
Initializing; in particular every attachment attempt strictly precedes the
run-loop start event. -/
theorem claim_C6_phases_monotone {E : Type} (debug : Bool)
    (attach : MemoryPlayer.Plugin → Except E Unit) (rls : Except E Unit) :
    List.Pairwise (fun a b => phaseOf a ≤ phaseOf b)
      (runTrace debug attach rls) ∧
    ∀ (i j : Nat) (p : MemoryPlayer.Plugin),
      (runTrace debug attach rls).get? i = some (Event.attachAttempt p) →
      (runTrace debug attach rls).get? j = some Event.runLoopStarted →
      i < j := by
  have hpw : List.Pairwise (fun a b => phaseOf a ≤ phaseOf b)
      (runTrace debug attach rls) := by
    simp only [runTrace]
    cases hres : (setup debug attach).2 <;> cases hr : rls <;>
      simp only [hres, hr] <;>
      · apply pairwise_attach_append
        decide
  refine ⟨hpw, ?_⟩
  intro i j p hi hj
  by_contra hcon
  push_neg at hcon
  obtain ⟨hjlen, hgj⟩ := List.get?_eq_some.mp hj
  obtain ⟨hilen, hgi⟩ := List.get?_eq_some.mp hi
  rcases Nat.lt_or_eq_of_le hcon with hlt | heq
  · have hmono := List.pairwise_iff_get.mp hpw ⟨j, hjlen⟩ ⟨i, hilen⟩ hlt
    rw [hgj, hgi] at hmono
    simp [phaseOf] at hmono
  · rw [heq] at hj
    rw [hi] at hj
    simp at hj

end MemoryPlayer
